import Mathlib

/-!
Shallow embedding of the allm-go request orchestration core (package `allm`,
v0.5.0 sources: `allm.go`, `validation.go`, and the retry engine file holding
`retryWithBackoff`), together with theorems settling the specification claims
about it.

Modelling conventions:
* Go `error` values become `GoError`: the package's eight sentinel errors,
  generic errors carrying a message, and `fmt.Errorf`-style wrapping; `errors.Is`
  becomes `GoError.isErr`, which walks the wrap chain.
* `context.Context` state is abstracted to `CtxErr` (`ok`, `deadlineExceeded`,
  `canceled`), the only part of a context the embedded code inspects.
* Real-time quantities (backoff delays, jitter, latencies, timeout durations)
  do not influence the control flow of the embedded functions and are dropped;
  whether the caller's context fires during a backoff sleep, and what an
  attempt's context error is when `classifyError` runs, are oracle inputs
  (`RetryEnv`).
* The logger and hook are taken as registered (non-nil); emitted log lines and
  hook events become `REvent` values carrying the fields the claims speak
  about (event type, 1-based attempt number, sanitized error payload).
* Go `float64` request parameters are modelled as `Rat`; Go byte lengths
  (`len` on strings) as `String.utf8ByteSize`; Go `int` as `Int` where the
  code never guarantees non-negativity (`maxInputLen`, `maxTokens`) and `Nat`
  where it does (`maxRetries`, validated to 0..10 by `WithMaxRetries`).
-/

deriving instance DecidableEq for Except

namespace Allm

/-- The eight sentinel errors declared at the top of `allm.go`. -/
inductive ErrKind where
  | noProvider
  | emptyInput
  | inputTooLong
  | rateLimited
  | timeout
  | canceled
  | providerErr
  | emptyResponse
  deriving DecidableEq

/-- The message string of each sentinel, as declared in `allm.go`. -/
def ErrKind.message : ErrKind → String
  | .noProvider => "allm: no provider configured"
  | .emptyInput => "allm: empty input"
  | .inputTooLong => "allm: input exceeds max length"
  | .rateLimited => "allm: rate limited"
  | .timeout => "allm: request timeout"
  | .canceled => "allm: request canceled"
  | .providerErr => "allm: provider error"
  | .emptyResponse => "allm: empty response from provider"

/-- A Go `error` value as the embedded code can observe it: one of the package
sentinels, a generic error with a message, or a `fmt.Errorf("...: %w", inner)`
wrap of another error. -/
inductive GoError where
  | sentinel (k : ErrKind)
  | generic (msg : String)
  | wrap (msg : String) (inner : GoError)
  deriving DecidableEq

/-- `errors.Is(e, sentinel k)`: walks the wrap chain down to the base error. -/
def GoError.isErr : GoError → ErrKind → Bool
  | .sentinel k, k2 => k == k2
  | .generic _, _ => false
  | .wrap _ inner, k2 => inner.isErr k2

/-- `err.Error()`: the rendered message of an error. -/
def GoError.message : GoError → String
  | .sentinel k => k.message
  | .generic m => m
  | .wrap m inner => m ++ ": " ++ inner.message

/-- The state of a `context.Context` as returned by `ctx.Err()`. -/
inductive CtxErr where
  | ok
  | deadlineExceeded
  | canceled
  deriving DecidableEq

/-! ## `validation.go`: `containsSensitive` and `sanitizeError` -/

/-- `p` begins the character list `s` (used to embed `strings.Contains`). -/
def charsStartWith : List Char → List Char → Bool
  | _, [] => true
  | [], _ :: _ => false
  | c :: cs, p :: ps => c == p && charsStartWith cs ps

/-- `strings.Contains` on character lists: `p` occurs inside `s`. -/
def charsContain : List Char → List Char → Bool
  | [], p => charsStartWith [] p
  | s@(_ :: rest), p => charsStartWith s p || charsContain rest p

/-- `strings.Contains(s, p)`. -/
def strContains (s p : String) : Bool :=
  charsContain s.toList p.toList

/-- `strings.ToLower`. -/
def strToLower (s : String) : String :=
  ⟨s.toList.map Char.toLower⟩

/-- The credential patterns listed in `containsSensitive` (`validation.go`). -/
def sensitivePatterns : List String :=
  ["sk-ant-", "sk-", "api_key", "apikey", "bearer ", "token=", "key=", "authorization:"]

/-- `containsSensitive` (`validation.go`): the lowercased message contains one
of the credential/token patterns. -/
def containsSensitive (msg : String) : Bool :=
  sensitivePatterns.any fun p => strContains (strToLower msg) p

/-- The sentinel check at the top of `sanitizeError`: the error `Is` one of the
eight package sentinels. -/
def isSentinelAny (e : GoError) : Bool :=
  e.isErr .rateLimited || e.isErr .timeout ||
  e.isErr .canceled || e.isErr .emptyResponse ||
  e.isErr .noProvider || e.isErr .emptyInput ||
  e.isErr .inputTooLong || e.isErr .providerErr

/-- The replacement error produced by `sanitizeError` when a message looks
like it holds key material. -/
def redactedError : GoError :=
  .generic "provider error (details redacted for security)"

/-- `sanitizeError` (`validation.go`) on a non-nil error. -/
def sanitizeErrorE (e : GoError) : GoError :=
  if isSentinelAny e then e
  else if containsSensitive e.message then redactedError
  else e

/-- `sanitizeError` (`validation.go`), including the nil case. -/
def sanitizeError : Option GoError → Option GoError
  | none => none
  | some e => some (sanitizeErrorE e)

/-! ## `allm.go`: data model, `validateMessages`, `buildRequest`,
`isRetryable`, `classifyError` -/

/-- `Image` (`allm.go`): only the MIME type and the payload bytes are read by
the embedded core (`len(img.Data)` and the MIME allow-list). -/
structure Image where
  mimeType : String
  data : List Nat
  deriving DecidableEq

/-- `ToolCall` (`allm.go`). -/
structure ToolCall where
  id : String
  name : String
  arguments : String
  deriving DecidableEq

/-- `ToolResult` (`allm.go`). -/
structure ToolResult where
  toolCallID : String
  content : String
  isError : Bool
  deriving DecidableEq

/-- `Tool` (`allm.go`); `Parameters` (a JSON schema) is never consulted by the
orchestration core and is kept as an opaque string. -/
structure Tool where
  name : String
  description : String
  parameters : String
  deriving DecidableEq

/-- `Message` (`allm.go`). -/
structure Message where
  role : String
  content : String
  images : List Image
  toolCalls : List ToolCall
  toolResults : List ToolResult
  deriving DecidableEq

def RoleSystem : String := "system"
def RoleUser : String := "user"

/-- The bytes one message contributes to `totalLen` in `validateMessages`:
`len(m.Content)` plus `len(img.Data)` over images plus `len(tr.Content)` over
tool results. -/
def msgSize (m : Message) : Nat :=
  m.content.utf8ByteSize
    + (m.images.map fun img => img.data.length).sum
    + (m.toolResults.map fun tr => tr.content.utf8ByteSize).sum

/-- `totalLen` in `validateMessages`: the aggregate input size. -/
def aggregateSize (messages : List Message) : Nat :=
  (messages.map msgSize).sum

/-- The `hasContent` flag in `validateMessages`: some message carries a
non-empty content string, an image, a tool call, or a tool result. -/
def hasContentB (messages : List Message) : Bool :=
  messages.any fun m =>
    m.content != "" || !m.images.isEmpty || !m.toolCalls.isEmpty || !m.toolResults.isEmpty

/-- `validateMessages` (`allm.go`): empty-input check first, then the
aggregate-size check against `maxInputLen`. -/
def validateMessages (messages : List Message) (maxInputLen : Int) : Except GoError Unit :=
  if !hasContentB messages then .error (.sentinel .emptyInput)
  else if (aggregateSize messages : Int) > maxInputLen then .error (.sentinel .inputTooLong)
  else .ok ()

/-- `Request` (`allm.go`). -/
structure Request where
  messages : List Message
  model : String
  maxTokens : Int
  temperature : Rat
  topP : Rat
  stop : List String
  presencePenalty : Rat
  frequencyPenalty : Rat
  tools : List Tool
  deriving DecidableEq

/-- The fields of `clientState` (the snapshot in `allm.go`) that the embedded
control flow reads. `hasProvider` stands for `s.provider != nil`; the provider
itself and real-time fields are oracle inputs elsewhere. -/
structure ClientState where
  hasProvider : Bool
  maxInputLen : Int
  systemPrompt : String
  model : String
  maxTokens : Int
  temperature : Rat
  presencePenalty : Rat
  frequencyPenalty : Rat
  tools : List Tool
  maxRetries : Nat
  deriving DecidableEq

/-- `buildRequest` (`allm.go`): prepend a system message when the snapshot's
system prompt is non-empty, then fill every tunable field from the snapshot
(`TopP` and `Stop` keep their Go zero values). -/
def buildRequest (messages : List Message) (s : ClientState) : Request :=
  let msgs :=
    if s.systemPrompt != "" then
      ({ role := RoleSystem, content := s.systemPrompt,
         images := [], toolCalls := [], toolResults := [] } : Message) :: messages
    else messages
  { messages := msgs
    model := s.model
    maxTokens := s.maxTokens
    temperature := s.temperature
    topP := 0
    stop := []
    presencePenalty := s.presencePenalty
    frequencyPenalty := s.frequencyPenalty
    tools := s.tools }

/-- `isRetryable` (`allm.go`): rate-limit, timeout, and empty-response are the
transient kinds. -/
def isRetryable (e : GoError) : Bool :=
  e.isErr .rateLimited || e.isErr .timeout || e.isErr .emptyResponse

/-- `classifyError` (`allm.go`): errors wrapping one of the three retryable
sentinels pass through unchanged; otherwise the context state maps
deadline-exceeded to `ErrTimeout` and canceled to `ErrCanceled`. -/
def classifyError (e : GoError) (ctxErr : CtxErr) : GoError :=
  if e.isErr .rateLimited || e.isErr .emptyResponse || e.isErr .timeout then e
  else if ctxErr == .deadlineExceeded then .sentinel .timeout
  else if ctxErr == .canceled then .sentinel .canceled
  else e

/-! ## `validation.go`: `validateRequest` -/

def MaxModelNameLength : Nat := 256
def MaxToolNameLength : Nat := 64
def MaxStopSequenceLength : Nat := 128
def MaxStopSequences : Nat := 16
def MaxMaxTokens : Int := 1000000

/-- The image MIME allow-list (`allowedImageMIMETypes` in `validation.go`). -/
def allowedImageMIMETypes (s : String) : Bool :=
  s == "image/jpeg" || s == "image/png" || s == "image/gif" || s == "image/webp"

/-- The `for i, stop := range req.Stop` length check in `validateRequest`. -/
def checkStops (i : Nat) : List String → Option String
  | [] => none
  | stop :: rest =>
    if stop.utf8ByteSize > MaxStopSequenceLength then
      some ("stop sequence " ++ toString i ++ " exceeds maximum length of 128")
    else checkStops (i + 1) rest

/-- The `for i, tool := range req.Tools` name checks in `validateRequest`. -/
def checkTools (i : Nat) : List Tool → Option String
  | [] => none
  | tool :: rest =>
    if tool.name == "" then some ("tool " ++ toString i ++ " has empty name")
    else if tool.name.utf8ByteSize > MaxToolNameLength then
      some ("tool " ++ toString i ++ " name exceeds maximum length of 64")
    else checkTools (i + 1) rest

/-- The inner `for j, img := range msg.Images` checks in `validateRequest`. -/
def checkImages (j : Nat) : List Image → Option String
  | [] => none
  | img :: rest =>
    if img.mimeType == "" then some ("image " ++ toString j ++ " has empty MIME type")
    else if !allowedImageMIMETypes (strToLower img.mimeType) then
      some ("image " ++ toString j ++ " has unsupported MIME type: " ++ img.mimeType
        ++ " (allowed: jpeg, png, gif, webp)")
    else if img.data.isEmpty then some ("image " ++ toString j ++ " has empty data")
    else checkImages (j + 1) rest

/-- The `for _, msg := range req.Messages` loop in `validateRequest` (the image
index `j` restarts at each message, as in the source). -/
def checkMessageImages : List Message → Option String
  | [] => none
  | msg :: rest =>
    match checkImages 0 msg.images with
    | some e => some e
    | none => checkMessageImages rest

/-- `validateRequest` (`validation.go`): parameter-bound checks in source
order; `none` means the request passed. -/
def validateRequest (req : Request) : Option String :=
  if req.model.utf8ByteSize > MaxModelNameLength then
    some "model name exceeds maximum length of 256"
  else if req.temperature < 0 then some "temperature must be between 0.0 and 2.0"
  else if req.temperature > 2 then some "temperature must be between 0.0 and 2.0"
  else if req.topP < 0 then some "top_p must be between 0.0 and 1.0"
  else if req.topP > 1 then some "top_p must be between 0.0 and 1.0"
  else if req.presencePenalty < -2 || req.presencePenalty > 2 then
    some "presence_penalty must be between -2.0 and 2.0"
  else if req.frequencyPenalty < -2 || req.frequencyPenalty > 2 then
    some "frequency_penalty must be between -2.0 and 2.0"
  else if req.maxTokens < 0 then some "max_tokens cannot be negative"
  else if req.maxTokens > MaxMaxTokens then some "max_tokens exceeds maximum of 1000000"
  else if req.stop.length > MaxStopSequences then some "too many stop sequences (max 16)"
  else match checkStops 0 req.stop with
    | some e => some e
    | none =>
      match checkTools 0 req.tools with
      | some e => some e
      | none => checkMessageImages req.messages

/-! ## The retry engine: `retryWithBackoff` -/

/-- What one backend attempt produces: the operation's result, and the value
`attemptCtx.Err()` would return when `classifyError` inspects the attempt
context (`.deadlineExceeded` when the per-attempt timeout or an outer deadline
fired, `.canceled` when the caller canceled mid-attempt, else `.ok`). -/
structure AttemptOutcome (T : Type) where
  result : Except GoError T
  ctxErr : CtxErr

/-- Oracle describing the environment of one retry-engine call: the outcome of
each 0-based attempt, and whether the caller's context fires during the
backoff sleep that precedes attempt `i` (read only for `i ≥ 1`). -/
structure RetryEnv (T : Type) where
  attempt : Nat → AttemptOutcome T
  sleepCanceled : Nat → Bool

/-- The attempt result after the `classifyError` step of the loop body. -/
def classifyOutcome {T : Type} (o : AttemptOutcome T) : Except GoError T :=
  match o.result with
  | .ok v => .ok v
  | .error e => .error (classifyError e o.ctxErr)

/-- One emitted log line or hook event of the retry engine, restricted to the
fields the spec's claims mention: the event type, the 1-based attempt number,
and the (sanitized) error payload passed to the sink. -/
inductive REvent where
  | hookRequest (attempt : Nat)
  | logRetry (attempt : Nat) (err : Option GoError)
  | hookRetry (attempt : Nat) (err : Option GoError)
  | logSuccess (attempt : Nat)
  | hookSuccess (attempt : Nat)
  | logFail (attempt : Nat) (err : Option GoError)
  | hookFail (attempt : Nat) (err : Option GoError)
  deriving DecidableEq

/-- The observable outcome of one retry-engine call: emitted events in order,
number of backend invocations, and the returned value or error (`.error none`
is Go's `return zero, lastErr` fallthrough with a nil `lastErr`, reachable only
if the loop never runs). -/
structure RetryResult (T : Type) where
  events : List REvent
  calls : Nat
  result : Except (Option GoError) T

/-- The backoff preamble of a loop iteration (`if attempt > 0 { ... }` in
`retryWithBackoff`): the `Warn` log line and the `HookRetry` callback, each
given `sanitizeError(lastErr)`, emitted before the backoff sleep. -/
def preEvents (attempt : Nat) (lastErr : Option GoError) : List REvent :=
  if attempt > 0 then
    [.logRetry (attempt + 1) (sanitizeError lastErr),
     .hookRetry (attempt + 1) (sanitizeError lastErr)]
  else []

/-- The `for attempt := 0; attempt < maxAttempts; attempt++` loop of
`retryWithBackoff`, recursing on the remaining attempt budget. -/
def retryLoop {T : Type} (env : RetryEnv T) :
    (attempt : Nat) → (fuel : Nat) → (lastErr : Option GoError) → RetryResult T
  | _, 0, lastErr => ⟨[], 0, .error lastErr⟩
  | attempt, fuel + 1, lastErr =>
    let pre := preEvents attempt lastErr
    if attempt > 0 && env.sleepCanceled attempt then
      ⟨pre, 0, .error (some (.sentinel .canceled))⟩
    else
      match classifyOutcome (env.attempt attempt) with
      | .ok v => ⟨pre ++ [.logSuccess (attempt + 1), .hookSuccess (attempt + 1)], 1, .ok v⟩
      | .error e =>
        if !isRetryable e || fuel == 0 then
          ⟨pre ++ [.logFail (attempt + 1) (sanitizeError (some e)),
                   .hookFail (attempt + 1) (sanitizeError (some e))],
           1, .error (some e)⟩
        else
          let rest := retryLoop env (attempt + 1) fuel (some e)
          ⟨pre ++ rest.events, 1 + rest.calls, rest.result⟩

/-- `retryWithBackoff`: emit the request-started hook, then run the attempt
loop with `maxAttempts = 1 + maxRetries`. -/
def retryWithBackoff {T : Type} (maxRetries : Nat) (env : RetryEnv T) : RetryResult T :=
  let r := retryLoop env 0 (1 + maxRetries) none
  ⟨.hookRequest 1 :: r.events, r.calls, r.result⟩

/-! ## The orchestrator: `Chat`, `Complete`, `Stream` -/

/-- `Response` (`allm.go`), restricted to the fields the claims mention. -/
structure Response where
  content : String
  finishReason : String
  inputTokens : Nat
  outputTokens : Nat
  deriving DecidableEq

/-- `Client.Chat` (`allm.go`): provider check, `validateMessages`,
`buildRequest`, `validateRequest`, then the retry engine over the provider's
`Complete` (whose behavior the oracle `env` supplies). -/
def Chat (s : ClientState) (messages : List Message) (env : RetryEnv Response) :
    RetryResult Response :=
  if !s.hasProvider then ⟨[], 0, .error (some (.sentinel .noProvider))⟩
  else
    match validateMessages messages s.maxInputLen with
    | .error e => ⟨[], 0, .error (some e)⟩
    | .ok _ =>
      match validateRequest (buildRequest messages s) with
      | some m => ⟨[], 0, .error (some (.wrap "invalid request" (.generic m)))⟩
      | none => retryWithBackoff s.maxRetries env

/-- The single message `Client.Complete` wraps its prompt in:
`{Role: RoleUser, Content: prompt}`. -/
def userMessage (prompt : String) : Message :=
  { role := RoleUser, content := prompt, images := [], toolCalls := [], toolResults := [] }

/-- `Client.Complete` (`allm.go`): `Chat` on a single user message. -/
def Complete (s : ClientState) (prompt : String) (env : RetryEnv Response) :
    RetryResult Response :=
  Chat s [userMessage prompt] env

/-- `StreamChunk` (`allm.go`). -/
structure StreamChunk where
  content : String
  done : Bool
  error : Option GoError
  deriving DecidableEq

/-- Schedule oracle for the `select` in `Client.Stream`'s consumer loop:
`ctxAt i` is `streamCtx.Err()` when the `i`-th select runs, and `pickCtx i`
says whether the select takes the `<-streamCtx.Done()` case (possible only
when the context has an error). -/
structure StreamSched where
  ctxAt : Nat → CtxErr
  pickCtx : Nat → Bool

/-- The Go error value `streamCtx.Err()` returns in each done state (a plain
context error, not an allm sentinel); the `.ok` case is never read because the
`Done` branch fires only on a context with an error. -/
def ctxErrAsError : CtxErr → GoError
  | .ok => .generic ""
  | .deadlineExceeded => .generic "context deadline exceeded"
  | .canceled => .generic "context canceled"

/-- The single chunk the `<-streamCtx.Done()` select arm emits:
`StreamChunk{Error: classifyError(streamCtx.Err(), streamCtx)}`. -/
def ctxErrChunk (c : CtxErr) : StreamChunk :=
  { content := "", done := false,
    error := some (classifyError (ctxErrAsError c) c) }

/-- The `for { select { ... } }` consumer loop of `Client.Stream`: either the
context fires (one final classified error chunk), or the provider channel
yields (`[]` models the provider closing the channel; a forwarded chunk ends
the loop when flagged done or carrying an error). -/
def streamLoop (sched : StreamSched) : Nat → List StreamChunk → List StreamChunk
  | i, l =>
    if sched.ctxAt i != .ok && sched.pickCtx i then
      [ctxErrChunk (sched.ctxAt i)]
    else
      match l with
      | [] => []
      | c :: rest =>
        c :: (if c.done || c.error.isSome then [] else streamLoop sched (i + 1) rest)

/-- What `Client.Stream` delivers on its output channel, plus whether the
provider's `Stream` was invoked at all. -/
structure StreamOut where
  chunks : List StreamChunk
  providerCalled : Bool
  deriving DecidableEq

/-- `Client.Stream` (`allm.go`): the same provider/validation path as `Chat`,
then exactly one (retry-free) pass of the consumer loop over the provider's
chunk sequence. -/
def Stream (s : ClientState) (messages : List Message)
    (providerChunks : List StreamChunk) (sched : StreamSched) : StreamOut :=
  if !s.hasProvider then ⟨[⟨"", false, some (.sentinel .noProvider)⟩], false⟩
  else
    match validateMessages messages s.maxInputLen with
    | .error e => ⟨[⟨"", false, some e⟩], false⟩
    | .ok _ =>
      match validateRequest (buildRequest messages s) with
      | some m => ⟨[⟨"", false, some (.wrap "invalid request" (.generic m))⟩], false⟩
      | none => ⟨streamLoop sched 0 providerChunks, true⟩

/-! ## Observables of the retry trace -/

/-- The event is a hook callback invocation (as opposed to a log line). -/
def REvent.isHook : REvent → Bool
  | .hookRequest _ => true
  | .hookRetry _ _ => true
  | .hookSuccess _ => true
  | .hookFail _ _ => true
  | _ => false

/-- The event is a `HookRetry` callback. -/
def REvent.isRetryHook : REvent → Bool
  | .hookRetry _ _ => true
  | _ => false

/-- The event is a terminal hook callback (`HookSuccess` or `HookError`). -/
def REvent.isTerminalHook : REvent → Bool
  | .hookSuccess _ => true
  | .hookFail _ _ => true
  | _ => false

/-- The hook callbacks of a trace, in emission order. -/
def hookEvents (l : List REvent) : List REvent :=
  l.filter REvent.isHook

/-- Number of `HookRetry` callbacks in a trace. -/
def countRetryHooks (l : List REvent) : Nat :=
  (l.filter REvent.isRetryHook).length

/-- The error payload an event hands to its sink, when it carries one. -/
def REvent.errPayload : REvent → Option GoError
  | .logRetry _ e => e
  | .hookRetry _ e => e
  | .logFail _ e => e
  | .hookFail _ e => e
  | _ => none

/-- All error payloads handed to log sinks and hook callbacks by a trace. -/
def eventErrors (l : List REvent) : List GoError :=
  l.filterMap REvent.errPayload

/-- Zero or more retried hooks followed by exactly one terminal hook. -/
def retriesThenTerminal : List REvent → Bool
  | [] => false
  | e :: rest => (rest.isEmpty && e.isTerminalHook) || (e.isRetryHook && retriesThenTerminal rest)

/-- Zero or more retried hooks followed by at most one terminal hook. -/
def retriesThenAtMostTerminal : List REvent → Bool
  | [] => true
  | e :: rest => (rest.isEmpty && e.isTerminalHook) || (e.isRetryHook && retriesThenAtMostTerminal rest)

/-- The hook-event shape the spec claims for every call: one request-started
hook, then zero or more retried hooks, then exactly one terminal hook. -/
def claimedHookShape (l : List REvent) : Bool :=
  match hookEvents l with
  | e :: t => e == .hookRequest 1 && retriesThenTerminal t
  | [] => false

/-- The hook-event shape the retry engine actually guarantees: one
request-started hook, then zero or more retried hooks, then at most one
terminal hook. -/
def amendedHookShape (l : List REvent) : Bool :=
  match hookEvents l with
  | e :: t => e == .hookRequest 1 && retriesThenAtMostTerminal t
  | [] => false

/-- Attempt `i` of the environment fails and its classified error is one of
the retryable kinds. -/
def failsRetryableAt {T : Type} (env : RetryEnv T) (i : Nat) : Bool :=
  match classifyOutcome (env.attempt i) with
  | .error e => isRetryable e
  | .ok _ => false

/-- A stream chunk that explicitly terminates the sequence: flagged done or
carrying an error. -/
def isTerminalChunk (c : StreamChunk) : Bool :=
  c.done || c.error.isSome

/-- The chunk sequence ends with exactly one explicit terminal chunk, and no
terminal chunk occurs earlier. -/
def wellTerminated : List StreamChunk → Bool
  | [] => false
  | c :: rest => (rest.isEmpty && isTerminalChunk c) || (!isTerminalChunk c && wellTerminated rest)

/-- No chunk after a terminal chunk (a terminal chunk, if any, is last). -/
def noInteriorTerminal : List StreamChunk → Bool
  | [] => true
  | c :: rest => if isTerminalChunk c then rest.isEmpty else noInteriorTerminal rest




/-! ## Concrete fixtures used by witnesses and counterexamples -/

def c1envOk : RetryEnv Nat :=
  { attempt := fun i => if i < 2 then ⟨.error (.sentinel .rateLimited), .ok⟩ else ⟨.ok 42, .ok⟩
    sleepCanceled := fun _ => false }

def c1envFail : RetryEnv Nat :=
  { attempt := fun _ => ⟨.error (.sentinel .rateLimited), .ok⟩
    sleepCanceled := fun _ => false }

def c5envSleep : RetryEnv Nat :=
  { attempt := fun _ => ⟨.error (.sentinel .rateLimited), .ok⟩
    sleepCanceled := fun i => i == 1 }

def c5envCanceled : RetryEnv Nat :=
  { attempt := fun _ => ⟨.error (.generic "connection reset"), .canceled⟩
    sleepCanceled := fun _ => false }

def c2cexEnv : RetryEnv Nat :=
  { attempt := fun _ => ⟨.error (.sentinel .rateLimited), .ok⟩
    sleepCanceled := fun _ => true }

def c8env : RetryEnv Nat :=
  { attempt := fun _ => ⟨.error (.generic "POST /v1/chat failed: api_key=sk-abc123 rejected"), .ok⟩
    sleepCanceled := fun _ => false }

def c4state : ClientState :=
  { hasProvider := true, maxInputLen := 100000, systemPrompt := "", model := "",
    maxTokens := 0, temperature := 0, presencePenalty := 0, frequencyPenalty := 0,
    tools := [], maxRetries := 0 }

def c4msgs : List Message :=
  [{ role := RoleUser, content := "hi", images := [], toolCalls := [], toolResults := [] }]

def c4sched : StreamSched := ⟨fun _ => .ok, fun _ => false⟩

def c4pre : List StreamChunk := [⟨"Hel", false, none⟩, ⟨"lo", false, none⟩]

def c4term : StreamChunk := ⟨"", true, none⟩

def c4fSched : StreamSched :=
  ⟨fun i => if i = 0 then CtxErr.ok else CtxErr.deadlineExceeded, fun i => i != 0⟩

def c2wEnv : RetryEnv Nat :=
  { attempt := fun i => if i = 0 then ⟨.error (.sentinel .emptyResponse), .ok⟩ else ⟨.ok 7, .ok⟩
    sleepCanceled := fun _ => false }

def c6env : RetryEnv Response :=
  { attempt := fun _ => ⟨.ok ⟨"OK", "stop", 0, 0⟩, .ok⟩
    sleepCanceled := fun _ => false }

def c6state : ClientState :=
  { hasProvider := true, maxInputLen := -1, systemPrompt := "", model := "",
    maxTokens := 0, temperature := 0, presencePenalty := 0, frequencyPenalty := 0,
    tools := [], maxRetries := 0 }

def c6stateA : ClientState :=
  { hasProvider := true, maxInputLen := 2, systemPrompt := "", model := "",
    maxTokens := 0, temperature := 0, presencePenalty := 0, frequencyPenalty := 0,
    tools := [], maxRetries := 0 }

def c6stateB : ClientState :=
  { hasProvider := true, maxInputLen := 3, systemPrompt := "", model := "",
    maxTokens := 0, temperature := 0, presencePenalty := 0, frequencyPenalty := 0,
    tools := [], maxRetries := 0 }

def c6msgs : List Message :=
  [{ role := RoleUser, content := "abc", images := [], toolCalls := [], toolResults := [] }]

def c7state : ClientState :=
  { hasProvider := true, maxInputLen := 100000, systemPrompt := "", model := "",
    maxTokens := 0, temperature := 0, presencePenalty := 0, frequencyPenalty := 0,
    tools := [], maxRetries := 2 }

def c7env : RetryEnv Response :=
  { attempt := fun _ => ⟨.ok ⟨"OK", "stop", 0, 0⟩, .ok⟩
    sleepCanceled := fun _ => false }

def c7msgs : List Message :=
  [{ role := RoleUser, content := "", images := [], toolCalls := [], toolResults := [] }]

def c7chunks : List StreamChunk := [⟨"never", false, none⟩]

def c7sched : StreamSched := ⟨fun _ => .ok, fun _ => false⟩

def c10msg : Message :=
  { role := "assistant", content := "", images := [],
    toolCalls := [⟨"call-1", "get_weather", "null"⟩], toolResults := [] }

def c10tcs : List ToolCall := [⟨"call-1", "get_weather", "null"⟩]

lemma retryLoop_okStep {T : Type} (env : RetryEnv T) (a f : Nat) (le : Option GoError)
    (v : T)
    (hnc : a = 0 ∨ env.sleepCanceled a = false)
    (hco : classifyOutcome (env.attempt a) = .ok v) :
    retryLoop env a (f + 1) le =
      ⟨preEvents a le ++ [.logSuccess (a + 1), .hookSuccess (a + 1)], 1, .ok v⟩ := by
  rcases hnc with rfl | h
  · simp [retryLoop, hco]
  · simp [retryLoop, h, hco]

lemma retryLoop_failStep {T : Type} (env : RetryEnv T) (a f : Nat) (le : Option GoError)
    (e : GoError)
    (hnc : a = 0 ∨ env.sleepCanceled a = false)
    (hco : classifyOutcome (env.attempt a) = .error e)
    (hterm : isRetryable e = false ∨ f = 0) :
    retryLoop env a (f + 1) le =
      ⟨preEvents a le ++ [.logFail (a + 1) (sanitizeError (some e)),
        .hookFail (a + 1) (sanitizeError (some e))], 1, .error (some e)⟩ := by
  rcases hnc with rfl | h2
  · rcases hterm with h | h <;> simp [retryLoop, hco, h]
  · rcases hterm with h | h <;> simp [retryLoop, h2, hco, h]

lemma retryLoop_stepRec {T : Type} (env : RetryEnv T) (a f : Nat) (le : Option GoError)
    (e : GoError)
    (hnc : a = 0 ∨ env.sleepCanceled a = false)
    (hco : classifyOutcome (env.attempt a) = .error e)
    (hre : isRetryable e = true)
    (hf : f ≠ 0) :
    retryLoop env a (f + 1) le =
      ⟨preEvents a le ++ (retryLoop env (a + 1) f (some e)).events,
       1 + (retryLoop env (a + 1) f (some e)).calls,
       (retryLoop env (a + 1) f (some e)).result⟩ := by
  rcases hnc with rfl | h
  · simp [retryLoop, hco, hre, hf]
  · simp [retryLoop, h, hco, hre, hf]

lemma retryLoop_cancelStep {T : Type} (env : RetryEnv T) (a f : Nat) (le : Option GoError)
    (ha : 0 < a)
    (hsleep : env.sleepCanceled a = true) :
    retryLoop env a (f + 1) le = ⟨preEvents a le, 0, .error (some (.sentinel .canceled))⟩ := by
  simp [retryLoop, hsleep, ha]

lemma countRetryHooks_append (l1 l2 : List REvent) :
    countRetryHooks (l1 ++ l2) = countRetryHooks l1 + countRetryHooks l2 := by
  simp [countRetryHooks, List.filter_append]

lemma countRetryHooks_pre (a : Nat) (le : Option GoError) :
    countRetryHooks (preEvents a le) = if a = 0 then 0 else 1 := by
  by_cases ha : a = 0 <;>
    simp [preEvents, ha, Nat.pos_of_ne_zero, countRetryHooks, List.filter, REvent.isRetryHook]

lemma retryLoop_ok {T : Type} (env : RetryEnv T) (v : T)
    (hs : ∀ i, env.sleepCanceled i = false) :
    ∀ (k a f : Nat) (le : Option GoError),
      (∀ i, i < k → failsRetryableAt env (a + i) = true) →
      (env.attempt (a + k)).result = .ok v →
      k < f →
      (retryLoop env a f le).result = .ok v ∧
      (retryLoop env a f le).calls = k + 1 ∧
      countRetryHooks (retryLoop env a f le).events = k + (if a = 0 then 0 else 1) := by
  intro k
  induction k with
  | zero =>
    intro a f le _ hok hf
    obtain ⟨f, rfl⟩ : ∃ f2, f = f2 + 1 := ⟨f - 1, by omega⟩
    rw [Nat.add_zero] at hok
    have hco : classifyOutcome (env.attempt a) = Except.ok v := by
      simp [classifyOutcome, hok]
    rw [retryLoop_okStep env a f le v (Or.inr (hs a)) hco]
    refine ⟨rfl, rfl, ?_⟩
    rw [show (RetryResult.mk (T := T)
      (preEvents a le ++ [.logSuccess (a + 1), .hookSuccess (a + 1)]) 1 (.ok v)).events
      = preEvents a le ++ [.logSuccess (a + 1), .hookSuccess (a + 1)] from rfl]
    rw [countRetryHooks_append, countRetryHooks_pre]
    simp [countRetryHooks, List.filter, REvent.isRetryHook]
  | succ k ih =>
    intro a f le hfail hok hf
    obtain ⟨f, rfl⟩ : ∃ f2, f = f2 + 1 := ⟨f - 1, by omega⟩
    have h0 : failsRetryableAt env a = true := by
      have h1 := hfail 0 (by omega)
      rwa [Nat.add_zero] at h1
    cases hco : classifyOutcome (env.attempt a) with
    | ok w =>
      simp only [failsRetryableAt, hco] at h0
      exact absurd h0 (by decide)
    | error e =>
      have hre : isRetryable e = true := by
        simpa only [failsRetryableAt, hco] using h0
      have hrest := ih (a + 1) f (some e)
        (fun i hi => by
          have h2 := hfail (i + 1) (by omega)
          rwa [show a + (i + 1) = a + 1 + i by omega] at h2)
        (by rwa [show a + 1 + k = a + (k + 1) by omega])
        (by omega)
      obtain ⟨h1, h2, h3⟩ := hrest
      rw [retryLoop_stepRec env a f le e (Or.inr (hs a)) hco hre (by omega)]
      refine ⟨h1, ?_, ?_⟩
      · show 1 + (retryLoop env (a + 1) f (some e)).calls = k + 1 + 1
        omega
      · show countRetryHooks (preEvents a le ++ (retryLoop env (a + 1) f (some e)).events)
          = k + 1 + (if a = 0 then 0 else 1)
        rw [countRetryHooks_append, countRetryHooks_pre, h3]
        by_cases ha : a = 0 <;> simp [ha]
        all_goals omega

lemma retryLoop_allFail {T : Type} (env : RetryEnv T)
    (hfail : ∀ i, failsRetryableAt env i = true)
    (hs : ∀ i, env.sleepCanceled i = false) :
    ∀ (f a : Nat) (le : Option GoError), 1 ≤ f →
      (retryLoop env a f le).calls = f ∧
      ∃ e, (retryLoop env a f le).result = .error (some e) := by
  intro f
  induction f with
  | zero => intro a le h; omega
  | succ f ih =>
    intro a le _
    have h0 : failsRetryableAt env a = true := hfail a
    cases hco : classifyOutcome (env.attempt a) with
    | ok w =>
      simp only [failsRetryableAt, hco] at h0
      exact absurd h0 (by decide)
    | error e =>
      have hre : isRetryable e = true := by simpa only [failsRetryableAt, hco] using h0
      by_cases hf0 : f = 0
      · subst hf0
        rw [retryLoop_failStep env a 0 le e (Or.inr (hs a)) hco (Or.inr rfl)]
        exact ⟨rfl, e, rfl⟩
      · have hrest := ih (a + 1) (some e) (by omega)
        rw [retryLoop_stepRec env a f le e (Or.inr (hs a)) hco hre hf0]
        obtain ⟨h1, e2, h2⟩ := hrest
        refine ⟨?_, e2, h2⟩
        show 1 + (retryLoop env (a + 1) f (some e)).calls = f + 1
        omega

lemma retryLoop_sleepCancel {T : Type} (env : RetryEnv T) :
    ∀ (j a f : Nat) (le : Option GoError),
      (∀ i, i < j → failsRetryableAt env (a + i) = true) →
      (∀ i, i < j → env.sleepCanceled (a + i) = false) →
      env.sleepCanceled (a + j) = true →
      0 < a + j →
      j < f →
      (retryLoop env a f le).result = .error (some (.sentinel .canceled)) ∧
      (retryLoop env a f le).calls = j := by
  intro j
  induction j with
  | zero =>
    intro a f le _ _ hcan hpos hf
    obtain ⟨f, rfl⟩ : ∃ f2, f = f2 + 1 := ⟨f - 1, by omega⟩
    rw [Nat.add_zero] at hcan hpos
    rw [retryLoop_cancelStep env a f le hpos hcan]
    exact ⟨rfl, rfl⟩
  | succ j ih =>
    intro a f le hfail hsl hcan hpos hf
    obtain ⟨f, rfl⟩ : ∃ f2, f = f2 + 1 := ⟨f - 1, by omega⟩
    have h0 : failsRetryableAt env a = true := by
      have h1 := hfail 0 (by omega)
      rwa [Nat.add_zero] at h1
    have hsa : env.sleepCanceled a = false := by
      have h1 := hsl 0 (by omega)
      rwa [Nat.add_zero] at h1
    cases hco : classifyOutcome (env.attempt a) with
    | ok w =>
      simp only [failsRetryableAt, hco] at h0
      exact absurd h0 (by decide)
    | error e =>
      have hre : isRetryable e = true := by simpa only [failsRetryableAt, hco] using h0
      have hrest := ih (a + 1) f (some e)
        (fun i hi => by
          have h2 := hfail (i + 1) (by omega)
          rwa [show a + (i + 1) = a + 1 + i by omega] at h2)
        (fun i hi => by
          have h2 := hsl (i + 1) (by omega)
          rwa [show a + (i + 1) = a + 1 + i by omega] at h2)
        (by rwa [show a + 1 + j = a + (j + 1) by omega])
        (by omega)
        (by omega)
      rw [retryLoop_stepRec env a f le e (Or.inr hsa) hco hre (by omega)]
      obtain ⟨h1, h2⟩ := hrest
      refine ⟨h1, ?_⟩
      show 1 + (retryLoop env (a + 1) f (some e)).calls = j + 1
      omega

lemma retryLoop_terminalErr {T : Type} (env : RetryEnv T) (e : GoError)
    (hnr : isRetryable e = false) :
    ∀ (j a f : Nat) (le : Option GoError),
      (∀ i, i < j → failsRetryableAt env (a + i) = true) →
      (∀ i, i ≤ j → env.sleepCanceled (a + i) = false) →
      classifyOutcome (env.attempt (a + j)) = .error e →
      j < f →
      (retryLoop env a f le).result = .error (some e) ∧
      (retryLoop env a f le).calls = j + 1 := by
  intro j
  induction j with
  | zero =>
    intro a f le _ hsl hco hf
    obtain ⟨f, rfl⟩ : ∃ f2, f = f2 + 1 := ⟨f - 1, by omega⟩
    rw [Nat.add_zero] at hco
    have hsa : env.sleepCanceled a = false := by
      have h1 := hsl 0 (by omega)
      rwa [Nat.add_zero] at h1
    rw [retryLoop_failStep env a f le e (Or.inr hsa) hco (Or.inl hnr)]
    exact ⟨rfl, rfl⟩
  | succ j ih =>
    intro a f le hfail hsl hco hf
    obtain ⟨f, rfl⟩ : ∃ f2, f = f2 + 1 := ⟨f - 1, by omega⟩
    have h0 : failsRetryableAt env a = true := by
      have h1 := hfail 0 (by omega)
      rwa [Nat.add_zero] at h1
    have hsa : env.sleepCanceled a = false := by
      have h1 := hsl 0 (by omega)
      rwa [Nat.add_zero] at h1
    cases hco2 : classifyOutcome (env.attempt a) with
    | ok w =>
      simp only [failsRetryableAt, hco2] at h0
      exact absurd h0 (by decide)
    | error e2 =>
      have hre : isRetryable e2 = true := by simpa only [failsRetryableAt, hco2] using h0
      have hrest := ih (a + 1) f (some e2)
        (fun i hi => by
          have h2 := hfail (i + 1) (by omega)
          rwa [show a + (i + 1) = a + 1 + i by omega] at h2)
        (fun i hi => by
          have h2 := hsl (i + 1) (by omega)
          rwa [show a + (i + 1) = a + 1 + i by omega] at h2)
        (by rwa [show a + 1 + j = a + (j + 1) by omega])
        (by omega)
      rw [retryLoop_stepRec env a f le e2 (Or.inr hsa) hco2 hre (by omega)]
      obtain ⟨h1, h2⟩ := hrest
      refine ⟨h1, ?_⟩
      show 1 + (retryLoop env (a + 1) f (some e2)).calls = j + 1 + 1
      omega

lemma isErr_unique (e : GoError) (k k2 : ErrKind) (h : e.isErr k = true) (hne : k ≠ k2) :
    e.isErr k2 = false := by
  induction e with
  | sentinel k0 =>
    simp only [GoError.isErr, beq_iff_eq] at h
    simp only [GoError.isErr, beq_eq_false_iff_ne]
    rw [h]
    exact hne
  | generic m =>
    simp only [GoError.isErr] at h
    exact absurd h (by decide)
  | wrap m inner ih =>
    simp only [GoError.isErr] at h ⊢
    exact ih h

lemma countRetryHooks_cons_hookRequest (n : Nat) (l : List REvent) :
    countRetryHooks (.hookRequest n :: l) = countRetryHooks l := by
  simp [countRetryHooks, List.filter, REvent.isRetryHook]

/-- Claim C1: a backend failing with a retryable kind on its first `k` invocations
and succeeding on invocation `k+1` makes the retry engine (max-retries `m`,
`k ≤ m`) return the success after exactly `k+1` backend invocations with
exactly `k` retry hook events; a backend that always fails with a retryable
kind makes the call fail after exactly `m+1` invocations. -/
theorem c1_retry_attempt_counts {T : Type} (m k : Nat) (env : RetryEnv T) (v : T)
    (hs : ∀ i, env.sleepCanceled i = false) :
    (k ≤ m → (∀ i, i < k → failsRetryableAt env i = true) →
      (env.attempt k).result = .ok v →
      (retryWithBackoff m env).result = .ok v ∧
      (retryWithBackoff m env).calls = k + 1 ∧
      countRetryHooks (retryWithBackoff m env).events = k) ∧
    ((∀ i, failsRetryableAt env i = true) →
      (retryWithBackoff m env).calls = m + 1 ∧
      ∃ e, (retryWithBackoff m env).result = .error (some e)) := by
  constructor
  · intro hkm hfail hok
    have h := retryLoop_ok env v hs k 0 (1 + m) none
      (fun i hi => by simpa using hfail i hi)
      (by simpa using hok)
      (by omega)
    obtain ⟨h1, h2, h3⟩ := h
    refine ⟨h1, h2, ?_⟩
    show countRetryHooks (.hookRequest 1 :: (retryLoop env 0 (1 + m) none).events) = k
    rw [countRetryHooks_cons_hookRequest, h3]
    simp
  · intro hfail
    have h := retryLoop_allFail env hfail hs (1 + m) 0 none (by omega)
    obtain ⟨h1, e, h2⟩ := h
    refine ⟨?_, e, h2⟩
    show (retryLoop env 0 (1 + m) none).calls = m + 1
    omega



/-- Witness for C1: with max-retries 2, two rate-limited failures then a
success give 3 invocations and 2 retry hooks; a permanently rate-limited
backend gives 3 invocations and a failure. -/
theorem c1_retry_attempt_counts_witness :
    ((retryWithBackoff 2 c1envOk).result = .ok 42 ∧
      (retryWithBackoff 2 c1envOk).calls = 3 ∧
      countRetryHooks (retryWithBackoff 2 c1envOk).events = 2) ∧
    ((retryWithBackoff 2 c1envFail).calls = 3 ∧
      ∃ e, (retryWithBackoff 2 c1envFail).result = .error (some e)) := by
  constructor
  · exact (c1_retry_attempt_counts 2 2 c1envOk 42 (fun i => rfl)).1 (by decide)
      (by decide) rfl
  · exact (c1_retry_attempt_counts 2 0 c1envFail 0 (fun i => rfl)).2 (fun i => rfl)

/-- Claim C5: cancellation of the caller's context during a backoff sleep makes the
retry engine return the canceled sentinel immediately with no further backend
invocation, and an attempt error classified as the cancellation kind is
terminal: one final invocation, never retried. -/
theorem c5_cancellation_is_terminal {T : Type} (m j : Nat) (env : RetryEnv T) :
    (1 ≤ j → j ≤ m →
      (∀ i, i < j → failsRetryableAt env i = true) →
      (∀ i, i < j → env.sleepCanceled i = false) →
      env.sleepCanceled j = true →
      (retryWithBackoff m env).result = .error (some (.sentinel .canceled)) ∧
      (retryWithBackoff m env).calls = j) ∧
    (∀ e, j ≤ m →
      (∀ i, i < j → failsRetryableAt env i = true) →
      (∀ i, i ≤ j → env.sleepCanceled i = false) →
      classifyOutcome (env.attempt j) = .error e →
      e.isErr .canceled = true →
      (retryWithBackoff m env).result = .error (some e) ∧
      (retryWithBackoff m env).calls = j + 1) := by
  constructor
  · intro hj hjm hfail hsl hcan
    have h := retryLoop_sleepCancel env j 0 (1 + m) none
      (fun i hi => by simpa using hfail i hi)
      (fun i hi => by simpa using hsl i hi)
      (by simpa using hcan)
      (by omega) (by omega)
    exact ⟨h.1, h.2⟩
  · intro e hjm hfail hsl hco hcanc
    have hnr : isRetryable e = false := by
      have h1 := isErr_unique e .canceled .rateLimited hcanc (by decide)
      have h2 := isErr_unique e .canceled .timeout hcanc (by decide)
      have h3 := isErr_unique e .canceled .emptyResponse hcanc (by decide)
      simp [isRetryable, h1, h2, h3]
    have h := retryLoop_terminalErr env e hnr j 0 (1 + m) none
      (fun i hi => by simpa using hfail i hi)
      (fun i hi => by simpa using hsl i hi)
      (by simpa using hco)
      (by omega)
    exact ⟨h.1, h.2⟩



/-- Witness for C5: a cancelation during the first backoff sleep stops the
call after 1 invocation with the canceled sentinel; an attempt classified as
canceled stops the call after that single invocation. -/
theorem c5_cancellation_is_terminal_witness :
    ((retryWithBackoff 2 c5envSleep).result = .error (some (.sentinel .canceled)) ∧
      (retryWithBackoff 2 c5envSleep).calls = 1) ∧
    ((retryWithBackoff 2 c5envCanceled).result = .error (some (.sentinel .canceled)) ∧
      (retryWithBackoff 2 c5envCanceled).calls = 1) := by
  constructor
  · exact (c5_cancellation_is_terminal 2 1 c5envSleep).1 (by decide) (by decide)
      (by decide) (by decide) rfl
  · exact (c5_cancellation_is_terminal 2 0 c5envCanceled).2 (.sentinel .canceled)
      (by decide) (by decide) (by decide) rfl rfl

lemma hookEvents_append (l1 l2 : List REvent) :
    hookEvents (l1 ++ l2) = hookEvents l1 ++ hookEvents l2 := by
  simp [hookEvents]

lemma hookEvents_pre (a : Nat) (le : Option GoError) :
    hookEvents (preEvents a le) =
      if 0 < a then [.hookRetry (a + 1) (sanitizeError le)] else [] := by
  by_cases ha : a = 0
  · simp [preEvents, ha, hookEvents]
  · simp [preEvents, Nat.pos_of_ne_zero ha, hookEvents, List.filter, REvent.isHook]

lemma hookEvents_cons_hookRequest (n : Nat) (l : List REvent) :
    hookEvents (.hookRequest n :: l) = .hookRequest n :: hookEvents l := by
  simp [hookEvents, List.filter, REvent.isHook]

lemma atMost_retry_cons (n : Nat) (oe : Option GoError) (l : List REvent) :
    retriesThenAtMostTerminal (.hookRetry n oe :: l) = retriesThenAtMostTerminal l := by
  cases l <;> simp [retriesThenAtMostTerminal, REvent.isRetryHook, REvent.isTerminalHook]

lemma exact_retry_cons (n : Nat) (oe : Option GoError) (l : List REvent) :
    retriesThenTerminal (.hookRetry n oe :: l) = retriesThenTerminal l := by
  cases l <;> simp [retriesThenTerminal, REvent.isRetryHook, REvent.isTerminalHook]

lemma retryLoop_hookShapeAtMost {T : Type} (env : RetryEnv T) :
    ∀ (f a : Nat) (le : Option GoError),
      retriesThenAtMostTerminal (hookEvents (retryLoop env a f le).events) = true := by
  intro f
  induction f with
  | zero => intro a le; rfl
  | succ f ih =>
    intro a le
    by_cases hca : 0 < a ∧ env.sleepCanceled a = true
    · rw [retryLoop_cancelStep env a f le hca.1 hca.2]
      show retriesThenAtMostTerminal (hookEvents (preEvents a le)) = true
      rw [hookEvents_pre, if_pos hca.1]
      simp [retriesThenAtMostTerminal, REvent.isRetryHook]
    · have hnc : a = 0 ∨ env.sleepCanceled a = false := by
        by_cases ha : a = 0
        · exact Or.inl ha
        · right
          cases hb : env.sleepCanceled a
          · rfl
          · exact absurd ⟨Nat.pos_of_ne_zero ha, hb⟩ hca
      cases hco : classifyOutcome (env.attempt a) with
      | ok v =>
        rw [retryLoop_okStep env a f le v hnc hco]
        show retriesThenAtMostTerminal (hookEvents
          (preEvents a le ++ [.logSuccess (a + 1), .hookSuccess (a + 1)])) = true
        rw [hookEvents_append, hookEvents_pre]
        by_cases ha : 0 < a <;>
          simp [ha, hookEvents, List.filter, REvent.isHook, retriesThenAtMostTerminal,
            REvent.isTerminalHook, REvent.isRetryHook]
      | error e =>
        by_cases hterm : isRetryable e = true ∧ f ≠ 0
        · rw [retryLoop_stepRec env a f le e hnc hco hterm.1 hterm.2]
          show retriesThenAtMostTerminal (hookEvents
            (preEvents a le ++ (retryLoop env (a + 1) f (some e)).events)) = true
          rw [hookEvents_append, hookEvents_pre]
          by_cases ha : 0 < a
          · rw [if_pos ha]
            show retriesThenAtMostTerminal (.hookRetry (a + 1) (sanitizeError le)
              :: hookEvents (retryLoop env (a + 1) f (some e)).events) = true
            rw [atMost_retry_cons]
            exact ih (a + 1) (some e)
          · rw [if_neg ha, List.nil_append]
            exact ih (a + 1) (some e)
        · have hterm2 : isRetryable e = false ∨ f = 0 := by
            cases hb : isRetryable e
            · exact Or.inl rfl
            · right
              by_contra hf
              exact hterm ⟨hb, hf⟩
          rw [retryLoop_failStep env a f le e hnc hco hterm2]
          show retriesThenAtMostTerminal (hookEvents
            (preEvents a le ++ [.logFail (a + 1) (sanitizeError (some e)),
              .hookFail (a + 1) (sanitizeError (some e))])) = true
          rw [hookEvents_append, hookEvents_pre]
          by_cases ha : 0 < a <;>
            simp [ha, hookEvents, List.filter, REvent.isHook, retriesThenAtMostTerminal,
              REvent.isTerminalHook, REvent.isRetryHook]

lemma retryLoop_hookShapeExact {T : Type} (env : RetryEnv T)
    (hs : ∀ i, env.sleepCanceled i = false) :
    ∀ (f a : Nat) (le : Option GoError), 1 ≤ f →
      retriesThenTerminal (hookEvents (retryLoop env a f le).events) = true := by
  intro f
  induction f with
  | zero => intro a le h; omega
  | succ f ih =>
    intro a le _
    cases hco : classifyOutcome (env.attempt a) with
    | ok v =>
      rw [retryLoop_okStep env a f le v (Or.inr (hs a)) hco]
      show retriesThenTerminal (hookEvents
        (preEvents a le ++ [.logSuccess (a + 1), .hookSuccess (a + 1)])) = true
      rw [hookEvents_append, hookEvents_pre]
      by_cases ha : 0 < a <;>
        simp [ha, hookEvents, List.filter, REvent.isHook, retriesThenTerminal,
          REvent.isTerminalHook, REvent.isRetryHook]
    | error e =>
      by_cases hterm : isRetryable e = true ∧ f ≠ 0
      · rw [retryLoop_stepRec env a f le e (Or.inr (hs a)) hco hterm.1 hterm.2]
        show retriesThenTerminal (hookEvents
          (preEvents a le ++ (retryLoop env (a + 1) f (some e)).events)) = true
        rw [hookEvents_append, hookEvents_pre]
        by_cases ha : 0 < a
        · rw [if_pos ha]
          show retriesThenTerminal (.hookRetry (a + 1) (sanitizeError le)
            :: hookEvents (retryLoop env (a + 1) f (some e)).events) = true
          rw [exact_retry_cons]
          exact ih (a + 1) (some e) (by omega)
        · rw [if_neg ha, List.nil_append]
          exact ih (a + 1) (some e) (by omega)
      · have hterm2 : isRetryable e = false ∨ f = 0 := by
          cases hb : isRetryable e
          · exact Or.inl rfl
          · right
            by_contra hf
            exact hterm ⟨hb, hf⟩
        rw [retryLoop_failStep env a f le e (Or.inr (hs a)) hco hterm2]
        show retriesThenTerminal (hookEvents
          (preEvents a le ++ [.logFail (a + 1) (sanitizeError (some e)),
            .hookFail (a + 1) (sanitizeError (some e))])) = true
        rw [hookEvents_append, hookEvents_pre]
        by_cases ha : 0 < a <;>
          simp [ha, hookEvents, List.filter, REvent.isHook, retriesThenTerminal,
            REvent.isTerminalHook, REvent.isRetryHook]

/-- Claim C2, amended: the hook events of one retry-engine call are one
request-started hook, then zero or more retried hooks, then AT MOST one
terminal hook; when the caller's context is never canceled during a backoff
sleep, exactly one terminal hook closes the sequence. -/
theorem c2_hook_event_order {T : Type} (m : Nat) (env : RetryEnv T) :
    amendedHookShape (retryWithBackoff m env).events = true ∧
    ((∀ i, env.sleepCanceled i = false) →
      claimedHookShape (retryWithBackoff m env).events = true) := by
  constructor
  · have h := retryLoop_hookShapeAtMost env (1 + m) 0 none
    show amendedHookShape (.hookRequest 1 :: (retryLoop env 0 (1 + m) none).events) = true
    simp only [amendedHookShape, hookEvents_cons_hookRequest]
    simp [h]
  · intro hs
    have h := retryLoop_hookShapeExact env hs (1 + m) 0 none (by omega)
    show claimedHookShape (.hookRequest 1 :: (retryLoop env 0 (1 + m) none).events) = true
    simp only [claimedHookShape, hookEvents_cons_hookRequest]
    simp [h]


/-- Counterexample to C2 as stated: with max-retries 1, a rate-limited first
attempt and a cancellation during the backoff sleep, the call returns the
canceled sentinel but its hook events are request-started followed by one
retried hook with NO terminal success/failure hook. -/
theorem c2_hook_event_order_counterexample :
    claimedHookShape (retryWithBackoff 1 c2cexEnv).events = false ∧
    (retryWithBackoff 1 c2cexEnv).result = .error (some (.sentinel .canceled)) ∧
    hookEvents (retryWithBackoff 1 c2cexEnv).events =
      [.hookRequest 1, .hookRetry 2 (some (.sentinel .rateLimited))] := by
  refine ⟨by decide, by decide, by decide⟩

lemma eventErrors_append (l1 l2 : List REvent) :
    eventErrors (l1 ++ l2) = eventErrors l1 ++ eventErrors l2 := by
  simp [eventErrors]

lemma sanitizeErrorE_fixed (x : GoError) :
    sanitizeErrorE (sanitizeErrorE x) = sanitizeErrorE x ∧
    (isSentinelAny (sanitizeErrorE x) = false →
      containsSensitive (sanitizeErrorE x).message = false) := by
  cases hb : isSentinelAny x
  · by_cases h2 : containsSensitive x.message = true
    · have hx : sanitizeErrorE x = redactedError := by simp [sanitizeErrorE, hb, h2]
      rw [hx]
      exact ⟨by decide, fun _ => by decide⟩
    · have h2f : containsSensitive x.message = false := by
        cases hc : containsSensitive x.message
        · rfl
        · exact absurd hc h2
      have hx : sanitizeErrorE x = x := by simp [sanitizeErrorE, hb, h2f]
      rw [hx]
      exact ⟨hx, fun _ => h2f⟩
  · have hx : sanitizeErrorE x = x := by simp [sanitizeErrorE, hb]
    rw [hx]
    refine ⟨hx, fun h2 => ?_⟩
    rw [hb] at h2
    exact absurd h2 (by decide)

lemma eventErrors_pre (a : Nat) (le : Option GoError) (e : GoError)
    (h : e ∈ eventErrors (preEvents a le)) : ∃ x, e = sanitizeErrorE x := by
  by_cases ha : a = 0
  · simp [preEvents, ha, eventErrors] at h
  · cases le with
    | none =>
      simp [preEvents, Nat.pos_of_ne_zero ha, eventErrors, sanitizeError,
        REvent.errPayload] at h
    | some x =>
      simp [preEvents, Nat.pos_of_ne_zero ha, eventErrors, sanitizeError,
        REvent.errPayload] at h
      exact ⟨x, h⟩

lemma retryLoop_payloads {T : Type} (env : RetryEnv T) :
    ∀ (f a : Nat) (le : Option GoError) (e : GoError),
      e ∈ eventErrors (retryLoop env a f le).events → ∃ x, e = sanitizeErrorE x := by
  intro f
  induction f with
  | zero =>
    intro a le e h
    simp [retryLoop, eventErrors] at h
  | succ f ih =>
    intro a le e h
    by_cases hca : 0 < a ∧ env.sleepCanceled a = true
    · rw [retryLoop_cancelStep env a f le hca.1 hca.2] at h
      exact eventErrors_pre a le e h
    · have hnc : a = 0 ∨ env.sleepCanceled a = false := by
        by_cases ha : a = 0
        · exact Or.inl ha
        · right
          cases hb : env.sleepCanceled a
          · rfl
          · exact absurd ⟨Nat.pos_of_ne_zero ha, hb⟩ hca
      cases hco : classifyOutcome (env.attempt a) with
      | ok v =>
        rw [retryLoop_okStep env a f le v hnc hco] at h
        replace h : e ∈ eventErrors
            (preEvents a le ++ [.logSuccess (a + 1), .hookSuccess (a + 1)]) := h
        rw [eventErrors_append] at h
        rcases List.mem_append.mp h with h | h
        · exact eventErrors_pre a le e h
        · simp [eventErrors, REvent.errPayload] at h
      | error e2 =>
        by_cases hterm : isRetryable e2 = true ∧ f ≠ 0
        · rw [retryLoop_stepRec env a f le e2 hnc hco hterm.1 hterm.2] at h
          replace h : e ∈ eventErrors
              (preEvents a le ++ (retryLoop env (a + 1) f (some e2)).events) := h
          rw [eventErrors_append] at h
          rcases List.mem_append.mp h with h | h
          · exact eventErrors_pre a le e h
          · exact ih (a + 1) (some e2) e h
        · have hterm2 : isRetryable e2 = false ∨ f = 0 := by
            cases hb : isRetryable e2
            · exact Or.inl rfl
            · right
              by_contra hf
              exact hterm ⟨hb, hf⟩
          rw [retryLoop_failStep env a f le e2 hnc hco hterm2] at h
          replace h : e ∈ eventErrors
              (preEvents a le ++ [.logFail (a + 1) (sanitizeError (some e2)),
                .hookFail (a + 1) (sanitizeError (some e2))]) := h
          rw [eventErrors_append] at h
          rcases List.mem_append.mp h with h | h
          · exact eventErrors_pre a le e h
          · simp [eventErrors, REvent.errPayload, sanitizeError] at h
            exact ⟨e2, h⟩

/-- Claim C8: every error payload the retry engine hands to a log sink or hook
callback is a fixed point of sanitization, and when it is not one of the
package sentinels it contains no credential/token pattern — a non-sentinel
error with a sensitive message is always replaced by the redacted error
before reaching any sink. -/
theorem c8_sanitized_payloads {T : Type} (m : Nat) (env : RetryEnv T) (e : GoError)
    (he : e ∈ eventErrors (retryWithBackoff m env).events) :
    sanitizeErrorE e = e ∧
    (isSentinelAny e = false → containsSensitive e.message = false) := by
  have he2 : e ∈ eventErrors (retryLoop env 0 (1 + m) none).events := by
    have hstep : eventErrors (retryWithBackoff m env).events
        = eventErrors (retryLoop env 0 (1 + m) none).events := by
      show eventErrors (.hookRequest 1 :: (retryLoop env 0 (1 + m) none).events) = _
      simp [eventErrors, REvent.errPayload]
    rwa [hstep] at he
  obtain ⟨x, rfl⟩ := retryLoop_payloads env (1 + m) 0 none e he2
  exact sanitizeErrorE_fixed x


/-- Witness for C8: a non-sentinel backend error whose message embeds an API
key reaches the failure log line and hook only as the redacted error. -/
theorem c8_sanitized_payloads_witness :
    redactedError ∈ eventErrors (retryWithBackoff 0 c8env).events ∧
    (sanitizeErrorE redactedError = redactedError ∧
      (isSentinelAny redactedError = false →
        containsSensitive redactedError.message = false)) :=
  ⟨by decide, c8_sanitized_payloads 0 c8env redactedError (by decide)⟩

lemma streamLoop_noInterior (sched : StreamSched) :
    ∀ (l : List StreamChunk) (i : Nat),
      noInteriorTerminal (streamLoop sched i l) = true := by
  intro l
  induction l with
  | nil =>
    intro i
    rw [streamLoop]
    by_cases hc : (sched.ctxAt i != CtxErr.ok && sched.pickCtx i) = true
    · rw [if_pos hc]
      simp [noInteriorTerminal, isTerminalChunk, ctxErrChunk]
    · rw [if_neg hc]
      rfl
  | cons c rest ih =>
    intro i
    rw [streamLoop]
    by_cases hc : (sched.ctxAt i != CtxErr.ok && sched.pickCtx i) = true
    · rw [if_pos hc]
      simp [noInteriorTerminal, isTerminalChunk, ctxErrChunk]
    · rw [if_neg hc]
      by_cases ht : (c.done || c.error.isSome) = true
      · simp [ht, noInteriorTerminal, isTerminalChunk]
      · have htf : (c.done || c.error.isSome) = false := by
          cases hb : (c.done || c.error.isSome)
          · rfl
          · exact absurd hb ht
        simp [htf, noInteriorTerminal, isTerminalChunk]
        exact ih (i + 1)

lemma streamLoop_plain (sched : StreamSched)
    (hpick : ∀ i, sched.pickCtx i = false) :
    ∀ (l : List StreamChunk) (i : Nat),
      (∀ c ∈ l, isTerminalChunk c = false) →
      streamLoop sched i l = l := by
  intro l
  induction l with
  | nil =>
    intro i _
    rw [streamLoop]
    simp [hpick]
  | cons c rest ih =>
    intro i h
    have hc : isTerminalChunk c = false := h c (List.mem_cons_self c rest)
    rw [isTerminalChunk] at hc
    rw [streamLoop]
    simp only [hpick, Bool.and_false, Bool.false_eq_true, if_false, hc]
    simp [ih (i + 1) (fun d hd => h d (List.mem_cons_of_mem c hd))]

lemma streamLoop_terminalEnd (sched : StreamSched)
    (hpick : ∀ i, sched.pickCtx i = false)
    (term : StreamChunk) (hterm : isTerminalChunk term = true) :
    ∀ (l : List StreamChunk) (i : Nat),
      (∀ c ∈ l, isTerminalChunk c = false) →
      streamLoop sched i (l ++ [term]) = l ++ [term] := by
  intro l
  induction l with
  | nil =>
    intro i _
    rw [List.nil_append, streamLoop]
    simp only [hpick, Bool.and_false]
    rw [isTerminalChunk] at hterm
    simp [hterm]
  | cons c rest ih =>
    intro i h
    have hc : isTerminalChunk c = false := h c (List.mem_cons_self c rest)
    rw [isTerminalChunk] at hc
    rw [List.cons_append, streamLoop]
    simp only [hpick, Bool.and_false, Bool.false_eq_true, if_false, hc]
    simp [ih (i + 1) (fun d hd => h d (List.mem_cons_of_mem c hd))]

lemma wellTerminated_append_terminal (term : StreamChunk)
    (hterm : isTerminalChunk term = true) :
    ∀ (l : List StreamChunk), (∀ c ∈ l, isTerminalChunk c = false) →
      wellTerminated (l ++ [term]) = true := by
  intro l
  induction l with
  | nil =>
    intro _
    simp [wellTerminated, hterm]
  | cons c rest ih =>
    intro h
    have hc : isTerminalChunk c = false := h c (List.mem_cons_self c rest)
    rw [List.cons_append, wellTerminated]
    simp [hc, ih (fun d hd => h d (List.mem_cons_of_mem c hd))]

lemma wellTerminated_plain :
    ∀ (l : List StreamChunk), (∀ c ∈ l, isTerminalChunk c = false) →
      wellTerminated l = false := by
  intro l
  induction l with
  | nil => intro _; rfl
  | cons c rest ih =>
    intro h
    have hc : isTerminalChunk c = false := h c (List.mem_cons_self c rest)
    rw [wellTerminated]
    simp [hc, ih (fun d hd => h d (List.mem_cons_of_mem c hd))]

lemma isTerminalChunk_ctxErrChunk (c : CtxErr) :
    isTerminalChunk (ctxErrChunk c) = true := by
  simp [ctxErrChunk, isTerminalChunk]

lemma streamLoop_ctxFires (sched : StreamSched) :
    ∀ (n : Nat) (l : List StreamChunk) (i : Nat),
      (∀ j, j < n → sched.ctxAt (i + j) = CtxErr.ok ∨ sched.pickCtx (i + j) = false) →
      sched.ctxAt (i + n) ≠ CtxErr.ok →
      sched.pickCtx (i + n) = true →
      (∀ c ∈ l.take n, isTerminalChunk c = false) →
      n ≤ l.length →
      streamLoop sched i l = l.take n ++ [ctxErrChunk (sched.ctxAt (i + n))] := by
  intro n
  induction n with
  | zero =>
    intro l i _ hf1 hf2 _ _
    rw [Nat.add_zero] at hf1 hf2
    have hcond : (sched.ctxAt i != CtxErr.ok && sched.pickCtx i) = true := by
      simp [hf2, bne_iff_ne]
      exact hf1
    rw [streamLoop.eq_def]
    dsimp only
    rw [if_pos hcond, List.take_zero, List.nil_append, Nat.add_zero]
  | succ n ih =>
    intro l i hnofire hf1 hf2 hplain hlen
    cases l with
    | nil => exact absurd hlen (by simp)
    | cons c rest =>
      have hnf0 : sched.ctxAt i = CtxErr.ok ∨ sched.pickCtx i = false := by
        have h0 := hnofire 0 (by omega)
        rwa [Nat.add_zero] at h0
      have hcond : (sched.ctxAt i != CtxErr.ok && sched.pickCtx i) = false := by
        rcases hnf0 with h | h
        · simp [h]
        · simp [h]
      have hc : isTerminalChunk c = false := by
        apply hplain c
        rw [List.take_succ_cons]
        exact List.mem_cons_self c (rest.take n)
      rw [isTerminalChunk] at hc
      rw [streamLoop, if_neg (by simp [hcond])]
      simp only [hc, Bool.false_eq_true, if_false]
      have hrest := ih rest (i + 1)
        (fun j hj => by
          have h2 := hnofire (j + 1) (by omega)
          rwa [show i + (j + 1) = i + 1 + j by omega] at h2)
        (by rwa [show i + 1 + n = i + (n + 1) by omega])
        (by rwa [show i + 1 + n = i + (n + 1) by omega])
        (fun d hd => by
          apply hplain d
          rw [List.take_succ_cons]
          exact List.mem_cons_of_mem c hd)
        (by simpa using Nat.lt_succ_iff.mp (Nat.lt_succ_of_le hlen))
      rw [hrest, List.take_succ_cons, List.cons_append]
      rw [show i + 1 + n = i + (n + 1) by omega]

/-- Claim C4, amended: for every stream returned by `Stream`, no chunk ever follows
a done-flagged or error-carrying chunk; when the consumer's select never takes
the context branch, a provider sequence of plain chunks ending in a terminal
chunk is delivered verbatim and is explicitly terminated — but a provider that
closes its channel after only plain chunks (no done marker) yields exactly
those plain chunks with NO explicit terminator, the output channel simply
closing. When instead the stream context fires at the select following `n`
plain chunks, the consumer receives those `n` chunks and then exactly one
final error chunk classified from the context: the timeout sentinel on a
deadline, the canceled sentinel on a cancellation. -/
theorem c4_stream_termination (s : ClientState) (messages : List Message)
    (chunks pre : List StreamChunk) (term : StreamChunk) (sched sched2 : StreamSched)
    (hpick : ∀ i, sched.pickCtx i = false)
    (hpre : ∀ c ∈ pre, isTerminalChunk c = false) :
    noInteriorTerminal (Stream s messages chunks sched2).chunks = true ∧
    (isTerminalChunk term = true →
      streamLoop sched 0 (pre ++ [term]) = pre ++ [term] ∧
      wellTerminated (pre ++ [term]) = true) ∧
    (streamLoop sched 0 pre = pre ∧ wellTerminated pre = false) ∧
    (∀ (sched3 : StreamSched) (pre2 : List StreamChunk) (n : Nat),
      (∀ j, j < n → sched3.ctxAt j = CtxErr.ok ∨ sched3.pickCtx j = false) →
      sched3.ctxAt n ≠ CtxErr.ok →
      sched3.pickCtx n = true →
      (∀ c ∈ pre2.take n, isTerminalChunk c = false) →
      n ≤ pre2.length →
      streamLoop sched3 0 pre2 = pre2.take n ++ [ctxErrChunk (sched3.ctxAt n)] ∧
      wellTerminated (streamLoop sched3 0 pre2) = true ∧
      (sched3.ctxAt n = CtxErr.deadlineExceeded →
        streamLoop sched3 0 pre2 =
          pre2.take n ++ [⟨"", false, some (.sentinel .timeout)⟩]) ∧
      (sched3.ctxAt n = CtxErr.canceled →
        streamLoop sched3 0 pre2 =
          pre2.take n ++ [⟨"", false, some (.sentinel .canceled)⟩])) := by
  refine ⟨?_, ?_, ?_, ?_⟩
  · cases hp : s.hasProvider
    · simp [Stream, hp, noInteriorTerminal, isTerminalChunk]
    · cases hv : validateMessages messages s.maxInputLen with
      | error e => simp [Stream, hp, hv, noInteriorTerminal, isTerminalChunk]
      | ok u =>
        cases hr : validateRequest (buildRequest messages s) with
        | some msg => simp [Stream, hp, hv, hr, noInteriorTerminal, isTerminalChunk]
        | none =>
          simp only [Stream, hp, hv, hr, Bool.not_true, Bool.false_eq_true, if_false]
          exact streamLoop_noInterior sched2 chunks 0
  · intro hterm
    exact ⟨streamLoop_terminalEnd sched hpick term hterm pre 0 hpre,
      wellTerminated_append_terminal term hterm pre hpre⟩
  · exact ⟨streamLoop_plain sched hpick pre 0 hpre, wellTerminated_plain pre hpre⟩
  · intro sched3 pre2 n hnofire hf1 hf2 hplain hlen
    have hmain := streamLoop_ctxFires sched3 n pre2 0
      (fun j hj => by
        rw [Nat.zero_add]
        exact hnofire j hj)
      (by rw [Nat.zero_add]; exact hf1)
      (by rw [Nat.zero_add]; exact hf2)
      hplain hlen
    rw [Nat.zero_add] at hmain
    refine ⟨hmain, ?_, ?_, ?_⟩
    · rw [hmain]
      exact wellTerminated_append_terminal (ctxErrChunk (sched3.ctxAt n))
        (isTerminalChunk_ctxErrChunk (sched3.ctxAt n)) (pre2.take n) hplain
    · intro hd
      rw [hmain, hd]
      rfl
    · intro hd
      rw [hmain, hd]
      rfl




/-- Counterexample to C4 as stated: a provider that emits one plain content
chunk and closes its channel without a done marker makes `Stream` deliver that
chunk and close the output channel with no explicitly terminating chunk. -/
theorem c4_stream_termination_counterexample :
    (Stream c4state c4msgs [⟨"a", false, none⟩] c4sched).chunks = [⟨"a", false, none⟩] ∧
    wellTerminated (Stream c4state c4msgs [⟨"a", false, none⟩] c4sched).chunks = false := by
  refine ⟨by decide, by decide⟩



/-- Witness for C4 (amended) at concrete inputs: two plain chunks plus a done
marker are delivered verbatim and well terminated; the same two plain chunks
with the channel closed early are delivered verbatim without a terminator; a
deadline firing at the select after the first chunk yields that chunk followed
by one final timeout-sentinel error chunk. -/
theorem c4_stream_termination_witness :
    noInteriorTerminal (Stream c4state c4msgs [] c4sched).chunks = true ∧
    (streamLoop c4sched 0 (c4pre ++ [c4term]) = c4pre ++ [c4term] ∧
      wellTerminated (c4pre ++ [c4term]) = true) ∧
    (streamLoop c4sched 0 c4pre = c4pre ∧ wellTerminated c4pre = false) ∧
    (streamLoop c4fSched 0 c4pre
        = c4pre.take 1 ++ [⟨"", false, some (.sentinel .timeout)⟩] ∧
      wellTerminated (streamLoop c4fSched 0 c4pre) = true) := by
  have h := c4_stream_termination c4state c4msgs [] c4pre c4term c4sched c4sched
    (fun i => rfl) (by decide)
  have h4 := h.2.2.2 c4fSched c4pre 1 (by decide) (by decide) rfl (by decide) (by decide)
  exact ⟨h.1, h.2.1 (by decide), h.2.2.1, h4.2.2.1 rfl, h4.2.1⟩

lemma aggregateSize_eq_zero_of_no_content (messages : List Message)
    (h : hasContentB messages = false) : aggregateSize messages = 0 := by
  induction messages with
  | nil => rfl
  | cons m rest ih =>
    rw [hasContentB, List.any_cons, Bool.or_eq_false_iff] at h
    obtain ⟨hm, hrest⟩ := h
    rw [Bool.or_eq_false_iff, Bool.or_eq_false_iff, Bool.or_eq_false_iff] at hm
    obtain ⟨⟨⟨hc, hi⟩, _⟩, htr⟩ := hm
    rw [bne_eq_false_iff_eq] at hc
    simp at hi htr
    have hr : aggregateSize rest = 0 := ih hrest
    rw [aggregateSize, List.map_cons, List.sum_cons]
    rw [aggregateSize] at hr
    rw [hr, msgSize, hc, hi, htr]
    rfl

/-- Claim C6, amended: for a non-negative `maxInputLen`, a message list whose
aggregate size (text bytes + image bytes + tool-result bytes) strictly exceeds
the limit makes `Chat` fail with the input-too-long sentinel before any
backend invocation; an aggregate exactly at the limit always passes the size
check. (With a negative `maxInputLen` an all-empty message set exceeds the
limit yet fails with the empty-input kind, which is checked first.) -/
theorem c6_size_limit (s : ClientState) (env : RetryEnv Response) (messages : List Message)
    (hp : s.hasProvider = true) :
    (0 ≤ s.maxInputLen → (aggregateSize messages : Int) > s.maxInputLen →
      (Chat s messages env).result = .error (some (.sentinel .inputTooLong)) ∧
      (Chat s messages env).calls = 0 ∧ (Chat s messages env).events = []) ∧
    ((aggregateSize messages : Int) = s.maxInputLen →
      validateMessages messages s.maxInputLen ≠ .error (.sentinel .inputTooLong)) := by
  constructor
  · intro hle hgt
    have hcontent : hasContentB messages = true := by
      cases hhc : hasContentB messages
      · exfalso
        have h0 := aggregateSize_eq_zero_of_no_content messages hhc
        rw [h0] at hgt
        simp at hgt
        omega
      · rfl
    have hv : validateMessages messages s.maxInputLen = .error (.sentinel .inputTooLong) := by
      simp [validateMessages, hcontent, hgt]
    simp [Chat, hp, hv]
  · intro heq
    by_cases hhc : hasContentB messages = true
    · have hng : ¬ ((aggregateSize messages : Int) > s.maxInputLen) := by omega
      simp [validateMessages, hhc, hng]
    · simp at hhc
      simp [validateMessages, hhc]

/-- Counterexample to C6 as stated: with `maxInputLen = -1` (never validated
by `WithMaxInputLen`) and an empty message list, the aggregate size 0 strictly
exceeds the limit, yet `Chat` fails with the empty-input sentinel, not the
input-too-long one. -/
theorem c6_size_limit_counterexample :
    ((aggregateSize [] : Int) > c6state.maxInputLen) ∧
    (Chat c6state [] c6env).result ≠ .error (some (.sentinel .inputTooLong)) ∧
    (Chat c6state [] c6env).result = .error (some (.sentinel .emptyInput)) := by
  refine ⟨by decide, by decide, by decide⟩

/-- Witness for C6 at concrete inputs: a 3-byte message against limit 2 fails
with input-too-long and zero invocations; against limit 3 it passes the size
check. -/
theorem c6_size_limit_witness :
    ((Chat c6stateA c6msgs c6env).result = .error (some (.sentinel .inputTooLong)) ∧
      (Chat c6stateA c6msgs c6env).calls = 0 ∧ (Chat c6stateA c6msgs c6env).events = []) ∧
    validateMessages c6msgs c6stateB.maxInputLen ≠ .error (.sentinel .inputTooLong) := by
  constructor
  · exact (c6_size_limit c6stateA c6env c6msgs rfl).1 (by decide) (by decide)
  · exact (c6_size_limit c6stateB c6env c6msgs rfl).2 (by decide)

/-- Claim C7: a message set in which no message carries non-empty content, an
image, a tool call or a tool result makes `Chat`, `Stream` and `Complete`
fail with the empty-input sentinel, with zero backend invocations and no
retry activity. -/
theorem c7_empty_set_rejected (s : ClientState) (env : RetryEnv Response)
    (messages : List Message) (prompt : String)
    (chunks : List StreamChunk) (sched : StreamSched)
    (hp : s.hasProvider = true) (hc : hasContentB messages = false) :
    ((Chat s messages env).result = .error (some (.sentinel .emptyInput)) ∧
      (Chat s messages env).calls = 0 ∧ (Chat s messages env).events = []) ∧
    ((Stream s messages chunks sched).chunks = [⟨"", false, some (.sentinel .emptyInput)⟩] ∧
      (Stream s messages chunks sched).providerCalled = false) ∧
    (hasContentB [userMessage prompt] = false →
      (Complete s prompt env).result = .error (some (.sentinel .emptyInput)) ∧
      (Complete s prompt env).calls = 0) := by
  have hv : validateMessages messages s.maxInputLen = .error (.sentinel .emptyInput) := by
    simp [validateMessages, hc]
  refine ⟨by simp [Chat, hp, hv], by simp [Stream, hp, hv], ?_⟩
  intro hcp
  have hvp : validateMessages [userMessage prompt] s.maxInputLen
      = .error (.sentinel .emptyInput) := by
    simp [validateMessages, hcp]
  simp [Complete, Chat, hp, hvp]

/-- Witness for C7: a single all-empty user message is rejected by chat and
stream with the empty-input sentinel and zero backend invocations; an empty
prompt is rejected by complete. -/
theorem c7_empty_set_rejected_witness :
    ((Chat c7state c7msgs c7env).result = .error (some (.sentinel .emptyInput)) ∧
      (Chat c7state c7msgs c7env).calls = 0 ∧ (Chat c7state c7msgs c7env).events = []) ∧
    ((Stream c7state c7msgs c7chunks c7sched).chunks
        = [⟨"", false, some (.sentinel .emptyInput)⟩] ∧
      (Stream c7state c7msgs c7chunks c7sched).providerCalled = false) ∧
    ((Complete c7state "" c7env).result = .error (some (.sentinel .emptyInput)) ∧
      (Complete c7state "" c7env).calls = 0) := by
  have h := c7_empty_set_rejected c7state c7env c7msgs "" c7chunks c7sched rfl (by decide)
  exact ⟨h.1, h.2.1, h.2.2 (by decide)⟩

/-- Claim C9: `classifyError` returns an error wrapping the rate-limit,
timeout or empty-response sentinel unchanged, whatever the attempt context's
state; only for other errors does it consult the context, mapping
deadline-exceeded to the timeout sentinel, canceled to the canceled sentinel,
and leaving the error unchanged otherwise. -/
theorem c9_classify_error_precedence (e : GoError) (c : CtxErr) :
    ((e.isErr .rateLimited || e.isErr .timeout || e.isErr .emptyResponse) = true →
      classifyError e c = e) ∧
    ((e.isErr .rateLimited || e.isErr .timeout || e.isErr .emptyResponse) = false →
      classifyError e c =
        match c with
        | .deadlineExceeded => .sentinel .timeout
        | .canceled => .sentinel .canceled
        | .ok => e) := by
  cases h1 : e.isErr .rateLimited <;> cases h2 : e.isErr .timeout <;>
    cases h3 : e.isErr .emptyResponse <;> cases c <;>
      simp [classifyError, h1, h2, h3]

/-- Witness for C9: a wrapped rate-limit error passes through classification
unchanged even on a canceled context; a plain error on a deadline-exceeded
context classifies as the timeout sentinel. -/
theorem c9_classify_error_precedence_witness :
    ((GoError.wrap "request failed" (.sentinel .rateLimited)).isErr .rateLimited ||
      (GoError.wrap "request failed" (.sentinel .rateLimited)).isErr .timeout ||
      (GoError.wrap "request failed" (.sentinel .rateLimited)).isErr .emptyResponse) = true ∧
    classifyError (.wrap "request failed" (.sentinel .rateLimited)) .canceled
      = .wrap "request failed" (.sentinel .rateLimited) ∧
    classifyError (.generic "boom") .deadlineExceeded = .sentinel .timeout :=
  ⟨by decide,
    (c9_classify_error_precedence (.wrap "request failed" (.sentinel .rateLimited))
      .canceled).1 (by decide),
    (c9_classify_error_precedence (.generic "boom") .deadlineExceeded).2 (by decide)⟩

/-- Claim C10: a message whose only payload is tool calls makes its message
set non-empty for validation, yet tool calls contribute nothing to the
aggregate input size; a tool-call-only message even passes validation at
`maxInputLen = 0` when the limit is non-negative. -/
theorem c10_tool_calls_uncounted (messages : List Message) (m : Message)
    (tcs : List ToolCall) (role : String) (maxLen : Int) :
    ((∃ mm ∈ messages, mm.toolCalls ≠ []) → hasContentB messages = true) ∧
    msgSize { m with toolCalls := tcs } = msgSize m ∧
    (tcs ≠ [] → 0 ≤ maxLen →
      validateMessages
        [{ role := role, content := "", images := [], toolCalls := tcs, toolResults := [] }]
        maxLen = .ok ()) := by
  refine ⟨?_, rfl, ?_⟩
  · rintro ⟨mm, hmem, hne⟩
    simp [hasContentB, List.any_eq_true]
    refine ⟨mm, hmem, ?_⟩
    tauto
  · intro hne hle
    simp [validateMessages, hasContentB, aggregateSize, msgSize, hne]
    have h0 : "".utf8ByteSize = 0 := rfl
    rw [h0]
    exact_mod_cast hle

/-- Witness for C10: a message carrying only one tool call counts as content,
its size is unchanged by stripping the tool calls, and it validates at limit
zero. -/
theorem c10_tool_calls_uncounted_witness :
    hasContentB [c10msg] = true ∧
    msgSize { c10msg with toolCalls := c10tcs } = msgSize c10msg ∧
    validateMessages
      [{ role := "assistant", content := "", images := [], toolCalls := c10tcs,
         toolResults := [] }] 0 = .ok () := by
  have h := c10_tool_calls_uncounted [c10msg] c10msg c10tcs "assistant" 0
  exact ⟨h.1 ⟨c10msg, by decide, by decide⟩, h.2.1, h.2.2 (by decide) (by decide)⟩

/-- Witness for C2 (amended): a backend failing once with empty-response then
succeeding, with no cancellation, emits request-started, one retried hook and
exactly one terminal hook. -/
theorem c2_hook_event_order_witness :
    amendedHookShape (retryWithBackoff 1 c2wEnv).events = true ∧
    claimedHookShape (retryWithBackoff 1 c2wEnv).events = true := by
  have h := c2_hook_event_order 1 c2wEnv
  exact ⟨h.1, h.2 (fun i => rfl)⟩

end Allm
